import Mathlib

/-!
Verification of the http-proxy policy layer: the versioncheck filter
(`src/versioncheck/checker.go`), the tokenfilter (`tokenfilter.Apply`), the
tunnel-ports admission filter (known from its test and the spec), and the
redis usage reporter (`reportPeriodically` / `submit`).

Go strings are modelled as Lean `String`, headers as association lists from
(canonical) header key to the list of values, machine integers as `Int`/`Nat`
(no overflow is reachable in the modelled code paths), `float64` percentages
as `ℚ` with Go's truncating `int(...)` conversion made explicit, and nil-able
Go pointers as `Option` with an explicit dereference step that can fault.
-/

/-! ## String helpers (structural, kernel-computable) -/

/-- Split a character list at every occurrence of `c`; mirrors the behaviour
of Go `strings.Split` (and Lean `String.splitOn`) for a one-character
separator: `n` separators yield `n + 1` chunks. -/
def splitChar (c : Char) : List Char → List (List Char)
  | [] => [[]]
  | x :: xs =>
    let r := splitChar c xs
    if x = c then [] :: r
    else
      match r with
      | [] => [[x]]
      | y :: ys => (x :: y) :: ys

/-- Whether string `s` starts with `p`; models Go `strings.HasPrefix`. -/
def strStartsWith (s p : String) : Bool :=
  p.data.isPrefixOf s.data

/-- Numeric value of a digit list (most significant first). -/
def digitsVal (l : List Char) : Nat :=
  l.foldl (fun a c => a * 10 + (c.toNat - 48)) 0

/-- Models Go `strconv.Atoi` on inputs within machine-int range: an optional
sign followed by one or more decimal digits. -/
def goAtoi (s : String) : Option Int :=
  let p : Int × List Char :=
    match s.data with
    | '-' :: rest => (-1, rest)
    | '+' :: rest => (1, rest)
    | l => (1, l)
  match p.2 with
  | [] => none
  | ds => if ds.all Char.isDigit then some (p.1 * (digitsVal ds : Int)) else none

/-- Models `net.SplitHostPort` for bracket-free addresses: it errors (`none`)
when the address has no colon or more than one colon, and otherwise splits at
the colon; an empty port segment is NOT an error (`"site.com:"` splits into
host `"site.com"` and port `""`). Bracketed IPv6 literals are not modelled
(no claim mentions them). -/
def splitHostPort (s : String) : Option (String × String) :=
  match splitChar ':' s.data with
  | [h, p] => some (String.mk h, String.mk p)
  | _ => none

/-! ## Headers -/

/-- A Go `http.Header`: canonical header key to list of values. All accesses
in the modelled code use fixed canonical-form constants, so case folding is
not modelled. -/
abbrev Header := List (String × List String)

/-- Values stored under key `k`; `h[k]` in Go (`nil`, i.e. `[]`, if absent). -/
def headerValues (h : Header) (k : String) : List String :=
  ((h.find? (fun e => e.1 == k)).map (fun e => e.2)).getD []

/-- Models `http.Header.Get`: the first value under `k`, or `""`. -/
def headerGet (h : Header) (k : String) : String :=
  (headerValues h k).headD ""

/-- Models `http.Header.Del`: removes every entry stored under key `k`. -/
def headerDel (h : Header) (k : String) : Header :=
  h.filter (fun e => !(e.1 == k))

/-- The `common.VersionHeader` constant. -/
def versionHeader : String := "X-Lantern-Version"

/-- The `common.TokenHeader` constant. -/
def tokenHeader : String := "X-Lantern-Auth-Token"

/-- The parts of a Go `*http.Request` the modelled filters inspect:
`req.Method`, `req.Host` and `req.Header`. -/
structure Request where
  method : String
  host : String
  header : Header
deriving DecidableEq

/-! ## Semantic versions (model of the external blang/semver library) -/

/-- A parsed semantic version as produced by `semver.Make`. -/
structure SemVer where
  major : Nat
  minor : Nat
  patch : Nat
  pre : List String
deriving DecidableEq

/-- A numeric semver chunk: nonempty, all digits, no leading zero. -/
def chunkNat (l : List Char) : Option Nat :=
  match l with
  | [] => none
  | ['0'] => some 0
  | '0' :: _ :: _ => none
  | ds => if ds.all Char.isDigit then some (digitsVal ds) else none

/-- Models `semver.Make` from the external blang/semver library: a string
parses exactly when it is `MAJOR.MINOR.PATCH` with numeric, no-leading-zero
components, optionally followed by nonempty hyphen-separated prerelease
chunks and ignored `+` build metadata. -/
def semverMake (s : String) : Option SemVer :=
  match splitChar '+' s.data with
  | [] => none
  | core :: _ =>
    match splitChar '-' core with
    | [] => none
    | vpart :: preParts =>
      match splitChar '.' vpart with
      | [a, b, c] => do
        let ma ← chunkNat a
        let mi ← chunkNat b
        let pa ← chunkNat c
        if preParts.any List.isEmpty then none
        else some ⟨ma, mi, pa, preParts.map String.mk⟩
      | _ => none

/-! ## VersionChecker (src/versioncheck/checker.go) -/

/-- The `oneMillion` constant (`100 * 100 * 100`). -/
def oneMillion : Int := 100 * 100 * 100

/-- Go's `int(x)` conversion of a `float64`, which truncates toward zero,
modelled on `ℚ`. -/
def ratTrunc (q : ℚ) : ℤ :=
  if 0 ≤ q.num then q.num / (q.den : ℤ) else -((-q.num) / (q.den : ℤ))

/-- The `VersionChecker` struct. `versionRange` is the compiled
`semver.Range` predicate (in Go literally a `func(Version) bool`), and
`rewriteURLHost` is `rewriteURL.Host` of the parsed rewrite URL. -/
structure VersionChecker where
  versionRange : SemVer → Bool
  rewriteURLHost : String
  rewriteURLString : String
  rewriteAddr : String
  tunnelPorts : List String
  ppm : Int

/-- The `New` constructor after `url.Parse` succeeded with host component
`uHost` and scheme `uScheme`, and `semver.ParseRange` compiled the range
expression to the predicate `range`: `rewriteAddr` gains `":443"` for https,
`tunnelPortsToCheck` defaults to `["80"]`, and the sampling threshold is
stored as `int(percentage * oneMillion)`. -/
def newChecker (uHost uScheme rewriteURL : String) (tunnelPortsToCheck : List String)
    (percentage : ℚ) (range : SemVer → Bool) : VersionChecker :=
  let rewriteAddr := if uScheme == "https" then uHost ++ ":443" else uHost
  let ports := if tunnelPortsToCheck.isEmpty then ["80"] else tunnelPortsToCheck
  ⟨range, uHost, rewriteURL, rewriteAddr, ports, ratTrunc (percentage * oneMillion)⟩

/-- The gate predicate `matchVersion`. The process-wide random draw
`random.Intn(oneMillion)` is passed in explicitly as `draw`
(`0 ≤ draw < oneMillion`). Mirrors the source: return false when the target
equals the rewrite host, when the header parses and the version does NOT
satisfy `versionRange`, or when the draw is at or above the `ppm`
threshold; otherwise true. -/
def matchVersion (c : VersionChecker) (req : Request) (draw : ℤ) : Bool :=
  if req.host == c.rewriteURLHost then false
  else if (match semverMake (headerGet req.header versionHeader) with
           | some v => !c.versionRange v
           | none => false) then false
  else if draw ≥ c.ppm then false
  else true

/-- Function `shouldRedirect` for GET requests: browser heuristics (Accept starts
with text/html, User-Agent starts with Mozilla/) and then `matchVersion`. -/
def shouldRedirect (c : VersionChecker) (req : Request) (draw : ℤ) : Bool :=
  if !strStartsWith (headerGet req.header "Accept") "text/html" then false
  else if !strStartsWith (headerGet req.header "User-Agent") "Mozilla/" then false
  else matchVersion c req draw

/-- Function `shouldRedirectOnConnect`: `matchVersion` plus the parsed destination
port being one of the configured tunnel ports. -/
def shouldRedirectOnConnect (c : VersionChecker) (req : Request) (draw : ℤ) : Bool :=
  if !matchVersion c req draw then false
  else
    match splitHostPort req.host with
    | none => false
    | some hp => c.tunnelPorts.contains hp.2

/-- The parts of a Go `*http.Response` literal built by this filter. -/
structure Response where
  statusCode : Nat
  protoMajor : Nat
  protoMinor : Nat
  location : List String
  close : Bool
deriving DecidableEq

/-- The 302 response built by `redirect`, with Location set to the rewrite
URL string and `Close: true`. -/
def redirectResponse (c : VersionChecker) : Response :=
  ⟨302, 1, 1, [c.rewriteURLString], true⟩

/-- The synthetic `200 OK` written raw to the downstream connection to
acknowledge the CONNECT. -/
def ok200Response : Response :=
  ⟨200, 1, 1, [], false⟩

/-- A Go runtime fault reachable in the modelled code. -/
inductive GoPanic where
  | nilPointerDeref
deriving DecidableEq

/-- Dereferencing a Go pointer modelled as `Option`: faults on `nil`. -/
def goDeref {α : Type} : Option α → Except GoPanic α
  | none => .error .nilPointerDeref
  | some a => .ok a

/-- What a filter invocation produced for the chain. -/
inductive Decision where
  | continueNext
  | reply (resp : Response)
  | errorReturn
deriving DecidableEq

/-- Function `redirectOnConnect`. Oracles stand for the two I/O interactions: `writeOK`
is whether `resp.Write(conn)` of the synthetic 200 OK succeeded, and
`readResult` is what `http.ReadRequest` produced for the first in-tunnel
request (`none` = read error, in which case the Go code logs and leaves the
reassigned `req` nil). Returns the raw responses written to the connection
together with the outcome; note that on a failed read the very next
statement `if req.Body != nil` dereferences the nil `req`. -/
def redirectOnConnect (c : VersionChecker) (writeOK : Bool) (readResult : Option Request) :
    List Response × Except GoPanic Decision :=
  if !writeOK then ([], .ok .errorReturn)
  else
    ([ok200Response],
     do
       let innerReq ← goDeref readResult
       let _ := innerReq
       pure (Decision.reply (redirectResponse c)))

/-- The observable outcome of one `Apply` invocation: the decision, the
request as `next` received it (if `next` was called), and the request after
`Apply` returned — the point at which the deferred
`req.Header.Del(common.VersionHeader)` has run. -/
structure ApplyResult where
  decision : Decision
  nextSaw : Option Request
  finalReq : Request
deriving DecidableEq

/-- Method `Apply` of the VersionChecker. The deferred deletion of the version
header runs when `Apply` returns, which is after `next(ctx, req)` has been
invoked, so `nextSaw` records the request as it stood at the call to
`next`. -/
def applyFilter (c : VersionChecker) (req : Request) (draw : ℤ)
    (writeOK : Bool) (readResult : Option Request) :
    List Response × Except GoPanic ApplyResult :=
  let deleted : Request := ⟨req.method, req.host, headerDel req.header versionHeader⟩
  let wrap : Decision → Option Request → Except GoPanic ApplyResult :=
    fun d saw => .ok ⟨d, saw, deleted⟩
  if req.method == "CONNECT" then
    if shouldRedirectOnConnect c req draw then
      let r := redirectOnConnect c writeOK readResult
      (r.1, r.2.map (fun d => ⟨d, none, deleted⟩))
    else ([], wrap .continueNext (some req))
  else if req.method == "GET" then
    if shouldRedirect c req draw then
      ([], wrap (.reply (redirectResponse c)) none)
    else ([], wrap .continueNext (some req))
  else ([], wrap .continueNext (some req))

/-! ## TokenAuthFilter (tokenfilter.Apply) -/

/-- The `tokenFilter` struct (the instrument collaborator is not modelled;
its `Mimic` observations have no effect on the decision). -/
structure TokenFilter where
  token : String

/-- The outcome of one `tokenFilter.Apply`: either `next` was called with
the given request, or the mimicked Apache response was written to the
downstream connection and the connection closed. -/
inductive TokenOutcome where
  | nextCalled (req : Request)
  | mimicked
deriving DecidableEq

/-- Method `tokenFilter.Apply`: empty configured token disables checking; otherwise
mimic when the header is absent/empty or its first value is empty; continue
with the token header deleted when any value equals the token; mimic
otherwise. -/
def tokenApply (f : TokenFilter) (req : Request) : TokenOutcome :=
  if f.token == "" then .nextCalled req
  else
    match headerValues req.header tokenHeader with
    | [] => .mimicked
    | t0 :: rest =>
      if t0 == "" then .mimicked
      else if (t0 :: rest).contains f.token then
        .nextCalled ⟨req.method, req.host, headerDel req.header tokenHeader⟩
      else .mimicked

/-! ## PortAdmissionFilter (tunnelportsfilter) -/

/-- A decision of the port admission filter. -/
inductive PortDecision where
  | reply (status : Nat) (close : Bool)
  | continued (req : Request)
deriving DecidableEq

/-- Modelled from the spec: the tunnelportsfilter implementation
(`tunnelportsfilter.New` and its handler) is not under src — only its test
is. Spec section 4.1: applies only to CONNECT requests; parses the target as
host:port; replies 400 (close) when the target cannot be split or the port
segment is empty or not a valid integer; replies 403 (close) when the port
parses but is not in the allowed set; otherwise continues with the request
unchanged. -/
def portFilterApply (allowed : List Int) (req : Request) : PortDecision :=
  if req.method == "CONNECT" then
    match splitHostPort req.host with
    | none => .reply 400 true
    | some hp =>
      match goAtoi hp.2 with
      | none => .reply 400 true
      | some p => if allowed.contains p then .continued req else .reply 403 true
  else .continued req

/-! ## Usage reporter (package redis: reportPeriodically / submit) -/

/-- A `measured.Stats` value: accumulated sent and received byte counts. -/
structure Stats where
  sentTotal : Nat
  recvTotal : Nat
deriving DecidableEq

/-- One durable write performed by `submit` for one device: `HIncrBy
bytesIn` by `stats.RecvTotal`, `HIncrBy bytesOut` by `stats.SentTotal`, and
`ExpireAt` the computed end of the current month. -/
structure SubmitWrite where
  deviceID : String
  bytesIn : Nat
  bytesOut : Nat
  expireAt : Int
deriving DecidableEq

/-- The Gregorian leap-year rule, as in Go's time package. Go's `%` and
Lean's `%` agree on divisibility-by-zero tests for every sign of the year. -/
def isLeap (y : Int) : Bool :=
  y % 4 == 0 && (y % 100 != 0 || y % 400 == 0)

/-- Number of leap years strictly before year `y` (proleptic Gregorian,
relative to an arbitrary fixed origin consistent across years). -/
def leapsBefore (y : Int) : Int :=
  (y - 1) / 4 - (y - 1) / 100 + (y - 1) / 400

/-- Length of month `m` (1..12) of year `y` in days. -/
def daysInMonth (y : Int) (m : Nat) : Int :=
  match m with
  | 1 => 31
  | 2 => if isLeap y then 29 else 28
  | 3 => 31
  | 4 => 30
  | 5 => 31
  | 6 => 30
  | 7 => 31
  | 8 => 31
  | 9 => 30
  | 10 => 31
  | 11 => 30
  | 12 => 31
  | _ => 0

/-- Days of year `y` that precede the first day of month `m` (1..12). -/
def daysBeforeMonth (y : Int) (m : Nat) : Int :=
  let leap : Int := if isLeap y then 1 else 0
  match m with
  | 1 => 0
  | 2 => 31
  | 3 => 59 + leap
  | 4 => 90 + leap
  | 5 => 120 + leap
  | 6 => 151 + leap
  | 7 => 181 + leap
  | 8 => 212 + leap
  | 9 => 243 + leap
  | 10 => 273 + leap
  | 11 => 304 + leap
  | 12 => 334 + leap
  | _ => 0

/-- Nanoseconds in a day. -/
def nanosPerDay : Int := 86400000000000

/-- Models `time.Date(y, m, 1, 0, 0, 0, 0, loc)` as an absolute instant in
nanoseconds: the day count of the first of the month (epoch 1970-01-01)
times a day's nanoseconds, shifted by the location's zone offset `loc`. -/
def monthStartNanos (y : Int) (m : Nat) (loc : Int) : Int :=
  (365 * (y - 1970) + (leapsBefore y - leapsBefore 1970) + daysBeforeMonth y m)
    * nanosPerDay - loc

/-- The expiration instant computed by `submit` from `now` in year `y`,
month `m`, location `loc`: month+1 with December rolling over to January of
the next year, then `time.Date(nextYear, nextMonth, 1, 0,0,0,0, loc)` minus
one nanosecond. -/
def endOfThisMonth (y : Int) (m : Nat) (loc : Int) : Int :=
  let p : Int × Nat := if m + 1 > 12 then (y + 1, 1) else (y, m + 1)
  monthStartNanos p.1 p.2 loc - 1

/-- The final instant of calendar month `(y, m)`, stated independently of the
code's computation: the month's first instant plus its length, minus one
nanosecond. -/
def monthFinalInstant (y : Int) (m : Nat) (loc : Int) : Int :=
  monthStartNanos y m loc + daysInMonth y m * nanosPerDay - 1

/-- Function `submit`: iterate over the aggregated per-device stats; for each device
run the Redis MULTI/EXEC (outcome given by the `store` oracle); on the first
failed EXEC return the error immediately (`true` in the second component),
performing nothing for the remaining devices; otherwise record the device's
durable write. Every write uses the `endOfThisMonth` expiration computed
once from `now`. -/
def submit (store : String → Bool) (y : Int) (m : Nat) (loc : Int) :
    List (String × Stats) → List SubmitWrite × Bool
  | [] => ([], false)
  | (d, s) :: rest =>
    if store d then
      let r := submit store y m loc rest
      (⟨d, s.recvTotal, s.sentTotal, endOfThisMonth y m loc⟩ :: r.1, r.2)
    else ([], true)

/-- The ticker arm of `reportPeriodically`: run `submit` over the current
`statsByDeviceID` map (log on error), then unconditionally reset the map to
empty. Returns the new map, the durable writes performed, and whether submit
returned an error. -/
def flushTick (store : String → Bool) (y : Int) (m : Nat) (loc : Int)
    (statsByDeviceID : List (String × Stats)) :
    List (String × Stats) × List SubmitWrite × Bool :=
  let r := submit store y m loc statsByDeviceID
  ([], r.1, r.2)

/-! ## Helper lemmas -/

theorem headerValues_headerDel (h : Header) (k : String) :
    headerValues (headerDel h k) k = [] := by
  have hf : (headerDel h k).find? (fun e => e.1 == k) = none := by
    rw [List.find?_eq_none]
    intro e he
    have hm := (List.mem_filter.mp he).2
    simpa using hm
  simp [headerValues, hf]

/-! ## Concrete fixtures -/

/-- A range predicate every version satisfies. -/
def rangeAll : SemVer → Bool := fun _ => true

/-- A range predicate matching versions below major 9 (a compiled
`semver.ParseRange` result such as for the expression `<9.0.0`). -/
def rangeBelow9 : SemVer → Bool := fun v => decide (v.major < 9)

/-- A concrete checker: rewrite URL `http://example.com/upgrade` (host
`example.com`), default tunnel ports, sampling threshold 1000000 (the value
`New` stores for percentage 1.0). -/
def cDemo : VersionChecker :=
  ⟨rangeAll, "example.com", "http://example.com/upgrade", "example.com", ["80"], 1000000⟩

/-- Checker `cDemo` is exactly what the constructor builds for percentage 1. -/
theorem cDemo_reachable :
    newChecker "example.com" "http" "http://example.com/upgrade" [] 1 rangeAll = cDemo := by
  unfold newChecker cDemo ratTrunc oneMillion
  norm_num
  intro h
  exact absurd h (by decide)

/-- Like `cDemo` but with the outdated-version range `<9.0.0`. -/
def cBelow9 : VersionChecker :=
  ⟨rangeBelow9, "example.com", "http://example.com/upgrade", "example.com", ["80"], 1000000⟩

/-! ## C1 — CONNECT hijack after a failed in-tunnel read -/

/-- C1: evaluating `redirectOnConnect` at the failing input. After the
synthetic 200 OK has been written, a failed `http.ReadRequest` leaves the
reassigned `req` nil (the error is merely logged), and the next statement
`if req.Body != nil` dereferences the nil pointer: the filter panics instead
of completing the hijack with the 302 response, contradicting the claim
(and the code's own comment that the response is sent regardless of what
the request is). -/
theorem redirectOnConnect_read_failure_panics :
    redirectOnConnect cDemo true none =
      ([ok200Response], Except.error GoPanic.nilPointerDeref) := rfl

/-! ## C2 — version inside the configured range -/

/-- Request carrying client version 3.0.0, inside the range `<9.0.0`. -/
def reqC2 : Request := ⟨"GET", "site.com", [(versionHeader, ["3.0.0"])]⟩

/-- C2 counterexample: a client version that parses and falls inside the
configured range is NOT spared — `matchVersion` returns true for it (with
sampling threshold 1000000 and draw 0), so such a client is a redirect
candidate, contrary to the claim. -/
theorem matchVersion_in_range_redirect_candidate_cx :
    semverMake "3.0.0" = some ⟨3, 0, 0, []⟩ ∧
    cBelow9.versionRange ⟨3, 0, 0, []⟩ = true ∧
    matchVersion cBelow9 reqC2 0 = true := by decide

/-- C2 amended: `matchVersion` returns false for every request whose
client-version header parses as a valid semantic version that falls
OUTSIDE the configured range (the range matches the outdated versions to
redirect); only clients whose version is in the range, or missing or
unparseable, can proceed to the sampling step. -/
theorem matchVersion_out_of_range_returns_false (c : VersionChecker) (req : Request)
    (draw : ℤ) (v : SemVer)
    (hparse : semverMake (headerGet req.header versionHeader) = some v)
    (hrange : c.versionRange v = false) :
    matchVersion c req draw = false := by
  simp [matchVersion, hparse, hrange]

/-- Request carrying client version 9.9.9, outside the range `<9.0.0`. -/
def reqW2 : Request := ⟨"GET", "site.com", [(versionHeader, ["9.9.9"])]⟩

/-- Witness for the amended C2 at a concrete out-of-range version. -/
theorem matchVersion_out_of_range_returns_false_witness :
    semverMake (headerGet reqW2.header versionHeader) = some ⟨9, 9, 9, []⟩ ∧
    cBelow9.versionRange ⟨9, 9, 9, []⟩ = false ∧
    matchVersion cBelow9 reqW2 0 = false :=
  ⟨by decide, by decide,
   matchVersion_out_of_range_returns_false cBelow9 reqW2 0 ⟨9, 9, 9, []⟩
     (by decide) (by decide)⟩

/-! ## C4 — token header with a matching value -/

/-- A token filter configured with a non-empty secret. -/
def tfEx : TokenFilter := ⟨"secret"⟩

/-- A request whose token header holds an empty first value followed by a
value equal to the secret. -/
def reqC4 : Request := ⟨"GET", "site.com", [(tokenHeader, ["", "secret"])]⟩

/-- C4 counterexample: the token header contains a value exactly equal to
the non-empty configured secret, yet the request is mimicked (connection
closed), not continued, because the first value is empty — the match's
position among the values is not irrelevant. -/
theorem tokenApply_empty_first_value_cx :
    tfEx.token = "secret" ∧
    headerValues reqC4.header tokenHeader = ["", "secret"] ∧
    (headerValues reqC4.header tokenHeader).contains tfEx.token = true ∧
    tokenApply tfEx reqC4 = TokenOutcome.mimicked := by decide

/-- C4 amended: when the secret is non-empty, a request whose token header
values start with a NON-EMPTY first value and contain at least one value
equal to the secret — at any position, whatever the other values — reaches
upstream with the token header removed. -/
theorem tokenApply_match_continues_header_removed (f : TokenFilter) (req : Request)
    (t0 : String) (rest : List String)
    (hne : f.token ≠ "")
    (hv : headerValues req.header tokenHeader = t0 :: rest)
    (h0 : t0 ≠ "")
    (hmem : (t0 :: rest).contains f.token = true) :
    tokenApply f req =
      TokenOutcome.nextCalled ⟨req.method, req.host, headerDel req.header tokenHeader⟩ := by
  have h1 : (f.token == "") = false := by simpa using hne
  have h2 : (t0 == "") = false := by simpa using h0
  unfold tokenApply
  rw [h1, hv]
  have hmem' : f.token = t0 ∨ f.token ∈ rest := by simpa using hmem
  simp [h2, hmem]
  intro hx
  rcases hmem' with h | h
  · exact absurd h hx
  · exact h

/-- A request whose token header matches the secret in second position. -/
def reqW4 : Request := ⟨"GET", "site.com", [(tokenHeader, ["x", "secret"])]⟩

/-- Witness for the amended C4: match in second position behind an
unrelated non-empty value. -/
theorem tokenApply_match_continues_header_removed_witness :
    tokenApply tfEx reqW4 =
      TokenOutcome.nextCalled ⟨"GET", "site.com", headerDel reqW4.header tokenHeader⟩ :=
  tokenApply_match_continues_header_removed tfEx reqW4 "x" ["secret"]
    (by decide) (by decide) (by decide) (by decide)

/-! ## C5 — version header removal in Apply -/

/-- A non-GET, non-CONNECT request carrying a client-version header. -/
def reqC5 : Request := ⟨"POST", "site.com", [(versionHeader, ["9.9.9"])]⟩

/-- C5 counterexample: the deferred deletion runs only when `Apply`
returns, which is after `next(ctx, req)` is invoked. On the pass-through
path, `next` receives the request with the client-version header still
present (`"9.9.9"`), so the request forwarded upstream still carries it;
the header is gone only from the post-return state. -/
theorem applyFilter_next_sees_version_header_cx :
    applyFilter cDemo reqC5 0 true none =
      ([], Except.ok ⟨Decision.continueNext, some reqC5, ⟨"POST", "site.com", []⟩⟩) ∧
    headerGet reqC5.header versionHeader = "9.9.9" := ⟨rfl, rfl⟩

/-- C5 amended: on every non-panicking code path of `Apply` — Continue,
Reply and the CONNECT branch alike, for every method — the client-version
header has been removed from the request by the time `Apply` returns
control (the deferred delete), but the request as passed to the next filter
during the call may still contain it. -/
theorem applyFilter_deletes_version_header_on_return (c : VersionChecker) (req : Request)
    (draw : ℤ) (writeOK : Bool) (readResult : Option Request) (res : ApplyResult)
    (h : (applyFilter c req draw writeOK readResult).2 = Except.ok res) :
    headerValues res.finalReq.header versionHeader = [] := by
  unfold applyFilter at h
  dsimp only at h
  split at h
  · split at h
    · rcases hr : (redirectOnConnect c writeOK readResult).2 with e | d
      · rw [hr] at h
        simp [Except.map] at h
      · rw [hr] at h
        simp only [Except.map] at h
        obtain rfl : (⟨d, none, ⟨req.method, req.host, headerDel req.header versionHeader⟩⟩ :
            ApplyResult) = res := by
          exact Except.ok.inj h
        exact headerValues_headerDel req.header versionHeader
    · obtain rfl : (⟨Decision.continueNext, some req,
          ⟨req.method, req.host, headerDel req.header versionHeader⟩⟩ : ApplyResult) = res := by
        exact Except.ok.inj h
      exact headerValues_headerDel req.header versionHeader
  · split at h
    · split at h
      · obtain rfl : (⟨Decision.reply (redirectResponse c), none,
            ⟨req.method, req.host, headerDel req.header versionHeader⟩⟩ : ApplyResult) = res := by
          exact Except.ok.inj h
        exact headerValues_headerDel req.header versionHeader
      · obtain rfl : (⟨Decision.continueNext, some req,
            ⟨req.method, req.host, headerDel req.header versionHeader⟩⟩ : ApplyResult) = res := by
          exact Except.ok.inj h
        exact headerValues_headerDel req.header versionHeader
    · obtain rfl : (⟨Decision.continueNext, some req,
          ⟨req.method, req.host, headerDel req.header versionHeader⟩⟩ : ApplyResult) = res := by
        exact Except.ok.inj h
      exact headerValues_headerDel req.header versionHeader

/-- Witness for the amended C5 on a concrete pass-through invocation. -/
theorem applyFilter_deletes_version_header_on_return_witness :
    headerValues
      (ApplyResult.mk Decision.continueNext (some reqC5)
        ⟨"POST", "site.com", []⟩).finalReq.header versionHeader = [] :=
  applyFilter_deletes_version_header_on_return cDemo reqC5 0 true none
    ⟨Decision.continueNext, some reqC5, ⟨"POST", "site.com", []⟩⟩ rfl

/-! ## C6 — redirect loop prevention and CONNECT targets -/

/-- A CONNECT request whose target's host part is the rewrite host. -/
def reqC6 : Request := ⟨"CONNECT", "example.com:80", []⟩

/-- C6 counterexample: the loop-prevention check compares the full target
string `req.Host` with `rewriteURL.Host`. For a CONNECT request the target
is written `host:port`, so `"example.com:80"` differs from `"example.com"`
and the check does not fire: `matchVersion` returns true and the CONNECT
gate passes — the request IS redirected although its target host is the
rewrite destination's host. -/
theorem connect_to_rewrite_host_redirected_cx :
    splitHostPort reqC6.host = some (cDemo.rewriteURLHost, "80") ∧
    matchVersion cDemo reqC6 0 = true ∧
    shouldRedirectOnConnect cDemo reqC6 0 = true := by decide

/-- C6 amended: only a request whose full target string equals the rewrite
destination's host component exactly is never redirected — then
`matchVersion`, `shouldRedirect` and `shouldRedirectOnConnect` all return
false. A CONNECT target `host:port` whose host part equals the rewrite host
is not exempted. -/
theorem matchVersion_exact_host_equality_no_redirect (c : VersionChecker) (req : Request)
    (draw : ℤ) (h : req.host = c.rewriteURLHost) :
    matchVersion c req draw = false ∧
    shouldRedirect c req draw = false ∧
    shouldRedirectOnConnect c req draw = false := by
  have hb : (req.host == c.rewriteURLHost) = true := by simpa using h
  refine ⟨?_, ?_, ?_⟩
  · simp [matchVersion, hb]
  · simp [shouldRedirect, matchVersion, hb]
  · simp [shouldRedirectOnConnect, matchVersion, hb]

/-- A GET request aimed exactly at the rewrite host. -/
def reqW6 : Request := ⟨"GET", "example.com", []⟩

/-- Witness for the amended C6 at the exact-equality target. -/
theorem matchVersion_exact_host_equality_no_redirect_witness :
    matchVersion cDemo reqW6 0 = false ∧
    shouldRedirect cDemo reqW6 0 = false ∧
    shouldRedirectOnConnect cDemo reqW6 0 = false :=
  matchVersion_exact_host_equality_no_redirect cDemo reqW6 0 (by decide)

/-! ## C7 — port admission trichotomy (spec-modelled) -/

/-- C7: for every CONNECT request exactly one of the three outcomes holds,
by case analysis on the target: 400 (close) when the target cannot be split
as host:port or the port segment is empty or not an integer (`goAtoi`
rejects the empty segment); 403 (close) when the port parses but is not
allowed; Continue with the request unchanged when the port is allowed. -/
theorem portFilterApply_trichotomy (allowed : List Int) (req : Request)
    (hm : req.method = "CONNECT") :
    (portFilterApply allowed req = .reply 400 true ↔
      splitHostPort req.host = none ∨
      (∃ hp, splitHostPort req.host = some hp ∧ goAtoi hp.2 = none)) ∧
    (portFilterApply allowed req = .reply 403 true ↔
      ∃ hp p, splitHostPort req.host = some hp ∧ goAtoi hp.2 = some p ∧
        allowed.contains p = false) ∧
    (portFilterApply allowed req = .continued req ↔
      ∃ hp p, splitHostPort req.host = some hp ∧ goAtoi hp.2 = some p ∧
        allowed.contains p = true) := by
  have hb : (req.method == "CONNECT") = true := by simpa using hm
  unfold portFilterApply
  rw [hb]
  rcases hs : splitHostPort req.host with _ | hp
  · simp [hs]
  · rcases ha : goAtoi hp.2 with _ | pnum
    · simp [hs, ha]
    · by_cases hc : pnum ∈ allowed
      · have hcb : allowed.contains pnum = true := by simpa using hc
        simp [hs, ha, hcb, hc]
      · have hcb : allowed.contains pnum = false := by simpa using hc
        simp [hs, ha, hcb, hc]

/-- A CONNECT request to a valid but disallowed port. -/
def reqW7 : Request := ⟨"CONNECT", "site.com:8081", []⟩

/-- Witness for C7: with allowed ports 443 and 8080 (the test's
configuration), CONNECT to site.com:8081 yields 403. -/
theorem portFilterApply_trichotomy_witness :
    portFilterApply [443, 8080] reqW7 = PortDecision.reply 403 true :=
  (portFilterApply_trichotomy [443, 8080] reqW7 (by decide)).2.1.mpr
    ⟨("site.com", "8081"), 8081, by decide, by decide, by decide⟩

/-! ## C8 — sampling rate 0 and 1 -/

/-- A range predicate matching versions of major at least 1 (a compiled
`semver.ParseRange` result such as for `>=1.0.0`). -/
def rangeAtLeast1 : SemVer → Bool := fun v => decide (1 ≤ v.major)

/-- Like `cDemo` but with the range `>=1.0.0`. -/
def cFull : VersionChecker :=
  ⟨rangeAtLeast1, "example.com", "http://example.com/upgrade", "example.com", ["80"], 1000000⟩

/-- A browser GET with client version 0.0.1, outside the range `>=1.0.0`. -/
def reqC8 : Request :=
  ⟨"GET", "site.com",
   [("Accept", ["text/html,application/xhtml+xml"]),
    ("User-Agent", ["Mozilla/5.0"]),
    (versionHeader, ["0.0.1"])]⟩

/-- C8 counterexample (second half of the claim): at sampling threshold
1000000 (rate 100 percent), a client whose version parses but falls OUTSIDE
the configured range is NOT redirected even though the GET heuristics all
hold — the code spares out-of-range versions and redirects in-range ones,
the opposite of the claim's polarity. -/
theorem full_sampling_out_of_range_not_redirected_cx :
    cFull.ppm = 1000000 ∧
    semverMake (headerGet reqC8.header versionHeader) = some ⟨0, 0, 1, []⟩ ∧
    cFull.versionRange ⟨0, 0, 1, []⟩ = false ∧
    strStartsWith (headerGet reqC8.header "Accept") "text/html" = true ∧
    strStartsWith (headerGet reqC8.header "User-Agent") "Mozilla/" = true ∧
    (reqC8.host == cFull.rewriteURLHost) = false ∧
    shouldRedirect cFull reqC8 0 = false := by decide

/-- The rewrite host stored by the constructor is the parsed URL host. -/
theorem newChecker_rewriteURLHost (uHost uScheme urlStr : String) (ports : List String)
    (percentage : ℚ) (range : SemVer → Bool) :
    (newChecker uHost uScheme urlStr ports percentage range).rewriteURLHost = uHost := rfl

/-- The range predicate stored by the constructor. -/
theorem newChecker_versionRange (uHost uScheme urlStr : String) (ports : List String)
    (percentage : ℚ) (range : SemVer → Bool) :
    (newChecker uHost uScheme urlStr ports percentage range).versionRange = range := rfl

/-- Lemma: `matchVersion` is true when the host differs from the rewrite host, the
version is unparseable or satisfies the range, and the draw is under the
threshold. -/
theorem matchVersion_true_of (c : VersionChecker) (req : Request) (draw : ℤ)
    (hhost : (req.host == c.rewriteURLHost) = false)
    (hver : semverMake (headerGet req.header versionHeader) = none ∨
      ∃ v, semverMake (headerGet req.header versionHeader) = some v ∧
        c.versionRange v = true)
    (hdraw : draw < c.ppm) :
    matchVersion c req draw = true := by
  unfold matchVersion
  rw [hhost]
  have hnot : ¬ draw ≥ c.ppm := by omega
  rcases hver with hn | ⟨v, hs, hr⟩
  · simp [hn, hnot]
  · simp [hs, hr, hnot]

/-- C8 amended: with sampling rate 0 (threshold 0) `matchVersion` is false
for every request and every draw in [0, 1000000), so no client is ever
redirected; with sampling rate 1 (threshold 1000000, i.e. 100 percent) the
sampling gate rejects no draw: every request whose host is not the rewrite
host and whose version is unparseable or INSIDE the configured range passes
`matchVersion`, a GET additionally meeting the browser heuristics is
redirected, and a CONNECT additionally aimed at a configured tunnel port is
redirected; while a client whose version parses OUTSIDE the configured
range is never redirected on either branch. -/
theorem sampling_zero_and_full_rate
    (uHost uScheme urlStr : String) (ports : List String) (range : SemVer → Bool)
    (req : Request) (draw : ℤ) (h0 : 0 ≤ draw) (h1 : draw < 1000000) :
    matchVersion (newChecker uHost uScheme urlStr ports 0 range) req draw = false ∧
    ((req.host == uHost) = false →
     (semverMake (headerGet req.header versionHeader) = none ∨
      ∃ v, semverMake (headerGet req.header versionHeader) = some v ∧
        range v = true) →
     matchVersion (newChecker uHost uScheme urlStr ports 1 range) req draw = true ∧
     (strStartsWith (headerGet req.header "Accept") "text/html" = true →
      strStartsWith (headerGet req.header "User-Agent") "Mozilla/" = true →
      shouldRedirect (newChecker uHost uScheme urlStr ports 1 range) req draw = true) ∧
     (∀ hp, splitHostPort req.host = some hp →
      (newChecker uHost uScheme urlStr ports 1 range).tunnelPorts.contains hp.2 = true →
      shouldRedirectOnConnect (newChecker uHost uScheme urlStr ports 1 range) req draw =
        true)) ∧
    (∀ v, semverMake (headerGet req.header versionHeader) = some v → range v = false →
     matchVersion (newChecker uHost uScheme urlStr ports 1 range) req draw = false ∧
     shouldRedirect (newChecker uHost uScheme urlStr ports 1 range) req draw = false ∧
     shouldRedirectOnConnect (newChecker uHost uScheme urlStr ports 1 range) req draw =
       false) := by
  have hppm0 : (newChecker uHost uScheme urlStr ports 0 range).ppm = 0 := by
    show ratTrunc (0 * (oneMillion : ℤ)) = 0
    norm_num [ratTrunc]
  have hppm1 : (newChecker uHost uScheme urlStr ports 1 range).ppm = 1000000 := by
    show ratTrunc (1 * (oneMillion : ℤ)) = 1000000
    norm_num [ratTrunc, oneMillion]
  refine ⟨?_, ?_, ?_⟩
  · simp only [matchVersion, hppm0, ge_iff_le, h0, if_true]
    split
    · rfl
    · split
      · rfl
      · rfl
  · intro hhost hver
    have hmv : matchVersion (newChecker uHost uScheme urlStr ports 1 range) req draw =
        true :=
      matchVersion_true_of _ req draw hhost hver (by rw [hppm1]; omega)
    refine ⟨hmv, ?_, ?_⟩
    · intro hA hUA
      unfold shouldRedirect
      rw [hA, hUA]
      simp only [Bool.not_true, Bool.false_eq_true, if_false]
      exact hmv
    · intro hp hsplit hports
      unfold shouldRedirectOnConnect
      rw [hmv, hsplit]
      simpa using hports
  · intro v hparse hrange
    have hrangec : (newChecker uHost uScheme urlStr ports 1 range).versionRange v = false :=
      hrange
    have hmvf : matchVersion (newChecker uHost uScheme urlStr ports 1 range) req draw =
        false := by
      simp [matchVersion, hparse, hrangec]
    refine ⟨hmvf, ?_, ?_⟩
    · unfold shouldRedirect
      rw [hmvf]
      simp
    · unfold shouldRedirectOnConnect
      rw [hmvf]
      simp

/-- A browser GET with no client-version header. -/
def reqW8 : Request :=
  ⟨"GET", "site.com", [("Accept", ["text/html"]), ("User-Agent", ["Mozilla/5.0"])]⟩

/-- A CONNECT to port 80 with no client-version header. -/
def reqW8c : Request := ⟨"CONNECT", "site.com:80", []⟩

/-- Witness for the amended C8 at concrete configurations and draw 0: the
0 percent checker redirects nobody; the 100 percent checker redirects the
browser GET and the port-80 CONNECT of a version-less client, and does not
redirect a client whose version 0.0.1 parses outside the range `>=1.0.0`. -/
theorem sampling_zero_and_full_rate_witness :
    matchVersion (newChecker "example.com" "http" "http://example.com/upgrade" [] 0 rangeAll)
      reqW8 0 = false ∧
    shouldRedirect (newChecker "example.com" "http" "http://example.com/upgrade" [] 1 rangeAll)
      reqW8 0 = true ∧
    shouldRedirectOnConnect
      (newChecker "example.com" "http" "http://example.com/upgrade" [] 1 rangeAll)
      reqW8c 0 = true ∧
    shouldRedirect
      (newChecker "example.com" "http" "http://example.com/upgrade" [] 1 rangeAtLeast1)
      reqC8 0 = false :=
  ⟨(sampling_zero_and_full_rate "example.com" "http" "http://example.com/upgrade" []
      rangeAll reqW8 0 (by decide) (by decide)).1,
   (((sampling_zero_and_full_rate "example.com" "http" "http://example.com/upgrade" []
      rangeAll reqW8 0 (by decide) (by decide)).2.1
     (by decide) (Or.inl (by decide))).2.1 (by decide) (by decide)),
   (((sampling_zero_and_full_rate "example.com" "http" "http://example.com/upgrade" []
      rangeAll reqW8c 0 (by decide) (by decide)).2.1
     (by decide) (Or.inl (by decide))).2.2 ("site.com", "80") (by decide) (by decide)),
   (((sampling_zero_and_full_rate "example.com" "http" "http://example.com/upgrade" []
      rangeAtLeast1 reqC8 0 (by decide) (by decide)).2.2
     ⟨0, 0, 1, []⟩ (by decide) (by decide)).2.1)⟩

/-! ## C9 — the percentage parameter is a fraction of 1 -/

/-- C9: the constructor stores the sampling threshold as
`int(percentage * oneMillion)`, so for every percentage at least 1 the
threshold is at least 1000000 and the sampling gate (`draw >= ppm` rejects)
passes for every draw in [0, 1000000) — a whole-number percent such as 5
behaves as 100 percent. -/
theorem newChecker_ppm_full_for_percentage_ge_one
    (uHost uScheme urlStr : String) (ports : List String) (range : SemVer → Bool)
    (p : ℚ) (hp : 1 ≤ p) :
    (newChecker uHost uScheme urlStr ports p range).ppm = ratTrunc (p * oneMillion) ∧
    1000000 ≤ (newChecker uHost uScheme urlStr ports p range).ppm ∧
    ∀ draw : ℤ, 0 ≤ draw → draw < oneMillion →
      ¬ draw ≥ (newChecker uHost uScheme urlStr ports p range).ppm := by
  have hcast : ((oneMillion : ℤ) : ℚ) = 1000000 := by norm_num [oneMillion]
  have hq : (1000000 : ℚ) ≤ p * (oneMillion : ℤ) := by
    rw [hcast]
    have h := mul_le_mul_of_nonneg_right hp (show (0:ℚ) ≤ 1000000 by norm_num)
    linarith
  have hq0 : (0 : ℚ) ≤ p * (oneMillion : ℤ) := by linarith
  have hmain : (1000000 : ℤ) ≤ ratTrunc (p * (oneMillion : ℤ)) := by
    unfold ratTrunc
    rw [if_pos (Rat.num_nonneg.mpr hq0), ← Rat.floor_def]
    refine Int.le_floor.mpr ?_
    push_cast
    exact_mod_cast hq
  refine ⟨rfl, hmain, ?_⟩
  intro draw hd0 hd1 hge
  have hge' : ratTrunc (p * (oneMillion : ℤ)) ≤ draw := hge
  have hm : (oneMillion : ℤ) = 1000000 := by norm_num [oneMillion]
  omega

/-- Witness for C9 at percentage 5. -/
theorem newChecker_ppm_full_for_percentage_ge_one_witness :
    1 ≤ (5 : ℚ) ∧
    1000000 ≤ (newChecker "example.com" "http" "http://example.com/upgrade" [] 5
      rangeAll).ppm :=
  ⟨by norm_num,
   (newChecker_ppm_full_for_percentage_ge_one "example.com" "http"
      "http://example.com/upgrade" [] rangeAll 5 (by norm_num)).2.1⟩

/-! ## Calendar lemmas -/

/-- One more year adds one leap day exactly when the year is leap. -/
theorem leapsBefore_succ (y : ℤ) :
    leapsBefore (y + 1) - leapsBefore y = (if isLeap y then 1 else 0) := by
  unfold leapsBefore isLeap
  split_ifs with h
  · simp only [Bool.and_eq_true, beq_iff_eq, Bool.or_eq_true, bne_iff_ne] at h
    omega
  · simp only [Bool.and_eq_true, beq_iff_eq, Bool.or_eq_true, bne_iff_ne] at h
    push_neg at h
    omega

/-- The code's expiration computation (first day of the next month, rolling
over the year at December, minus one nanosecond) lands exactly on the final
instant of the current month. -/
theorem endOfThisMonth_eq_monthFinalInstant (y : ℤ) (m : ℕ) (loc : ℤ)
    (h1 : 1 ≤ m) (h2 : m ≤ 12) :
    endOfThisMonth y m loc = monthFinalInstant y m loc := by
  have hls := leapsBefore_succ y
  interval_cases m <;>
    (unfold endOfThisMonth monthFinalInstant monthStartNanos daysBeforeMonth daysInMonth
      nanosPerDay
     cases hL : isLeap y <;> simp [hL] at hls ⊢ <;> omega)

/-! ## C3 — flush aborts on first error; map cleared regardless -/

/-- C3: if the durable write for device `d` fails while every device before
it succeeds, the flush pass performs exactly the writes for the devices
before `d`, no device after `d` is attempted, `submit` reports the error —
and (second conjunct) the in-memory map is reset to empty after every flush
pass, whatever happened, so unflushed deltas of unprocessed devices are
discarded. -/
theorem flushTick_aborts_early_and_clears
    (store : String → Bool) (y : ℤ) (m : ℕ) (loc : ℤ)
    (pre post : List (String × Stats)) (d : String) (s : Stats)
    (hpre : ∀ x ∈ pre, store x.1 = true) (hd : store d = false) :
    flushTick store y m loc (pre ++ (d, s) :: post) =
      ([], pre.map (fun x => ⟨x.1, x.2.recvTotal, x.2.sentTotal, endOfThisMonth y m loc⟩),
       true) ∧
    ∀ st : List (String × Stats), (flushTick store y m loc st).1 = [] := by
  constructor
  · have hsub : submit store y m loc (pre ++ (d, s) :: post) =
        (pre.map (fun x => ⟨x.1, x.2.recvTotal, x.2.sentTotal, endOfThisMonth y m loc⟩),
         true) := by
      induction pre with
      | nil => simp [submit, hd]
      | cons e t ih =>
        obtain ⟨dn, sn⟩ := e
        have he : store dn = true := hpre (dn, sn) (by simp)
        have ih' := ih (fun x hx => hpre x (by simp [hx]))
        simp [submit, he, ih']
    unfold flushTick
    rw [hsub]
  · intro st
    rfl

/-- The failing store used in the witness: only device "a" succeeds. -/
def storeW : String → Bool := fun id => id == "a"

/-- Witness for C3: devices a, b, c with b failing — only a's write happens,
c is untouched, the error is reported and the map is cleared. -/
theorem flushTick_aborts_early_and_clears_witness :
    flushTick storeW 2025 10 0 [("a", ⟨1, 2⟩), ("b", ⟨3, 4⟩), ("c", ⟨5, 6⟩)] =
      ([], [⟨"a", 2, 1, endOfThisMonth 2025 10 0⟩], true) :=
  (flushTick_aborts_early_and_clears storeW 2025 10 0 [("a", ⟨1, 2⟩)] [("c", ⟨5, 6⟩)]
    "b" ⟨3, 4⟩ (by decide) (by decide)).1

/-! ## C10 — expiration is the final instant of the flush month -/

/-- C10: every durable write of a flush at time `t` (year `y`, month `m`,
location `loc`) carries as expiration the final instant of `t`'s calendar
month — one nanosecond before the first instant of the following month,
with December rolling over to January of the next year. -/
theorem submit_expiration_is_month_final_instant
    (store : String → Bool) (y : ℤ) (m : ℕ) (loc : ℤ)
    (devices : List (String × Stats)) (h1 : 1 ≤ m) (h2 : m ≤ 12) :
    ∀ w ∈ (submit store y m loc devices).1, w.expireAt = monthFinalInstant y m loc := by
  have hme := endOfThisMonth_eq_monthFinalInstant y m loc h1 h2
  induction devices with
  | nil =>
    intro w hw
    simp [submit] at hw
  | cons e t ih =>
    intro w hw
    obtain ⟨dn, sn⟩ := e
    by_cases hsd : store dn = true
    · simp only [submit, hsd, if_true] at hw
      rcases List.mem_cons.mp hw with h | h
      · subst h
        exact hme
      · exact ih w h
    · have hf : store dn = false := by simpa using hsd
      simp [submit, hf] at hw

/-- A store on which every write succeeds. -/
def storeAll : String → Bool := fun _ => true

/-- Witness for C10 at October 2025. -/
theorem submit_expiration_is_month_final_instant_witness :
    (⟨"d", 2, 1, endOfThisMonth 2025 10 0⟩ : SubmitWrite) ∈
      (submit storeAll 2025 10 0 [("d", ⟨1, 2⟩)]).1 ∧
    (⟨"d", 2, 1, endOfThisMonth 2025 10 0⟩ : SubmitWrite).expireAt =
      monthFinalInstant 2025 10 0 :=
  ⟨by decide,
   submit_expiration_is_month_final_instant storeAll 2025 10 0 [("d", ⟨1, 2⟩)]
     (by decide) (by decide) ⟨"d", 2, 1, endOfThisMonth 2025 10 0⟩ (by decide)⟩
